import Mathlib

/-!
Shallow embedding of the PDF-Text-Remover pipeline core
(src/main.py, src/ocr_client.py, src/pdf_processor.py) and proofs of the
specification's claims about it.

Conventions: Python ints are `Int`/`Nat`; Python `None`-returning fallible
calls are `Option`; PIL images, parsed JSON values and merged-block lists
are type parameters where their content is irrelevant to the claim; the
outcome of one remote call is supplied as an oracle function from the
attempt number, so that a theorem quantifies over every behaviour of the
remote collaborator.
-/

namespace PTR

/-! ### Data model: OCR fragments and text blocks (src/ocr_client.py) -/

/-- The whitespace characters `str.strip()` removes (space, tab, newline,
carriage return, vertical tab, form feed). -/
def pyWhitespace : List Char := [' ', '\t', '\n', '\r', Char.ofNat 11, Char.ofNat 12]

/-- Python's `str.strip()`: drop leading and trailing whitespace. -/
def pyStrip (s : String) : String :=
  String.mk (((s.data.dropWhile fun c => pyWhitespace.contains c).reverse.dropWhile
      fun c => pyWhitespace.contains c).reverse)

/-- Python's `round(c / 100, 1)` for an exact value of `c` hundredths,
returned in tenths.  `0.75 * h` is an exact multiple of `0.25`, so CPython
rounds the true value to the nearest tenth with ties going to the even
tenth digit; this function implements exactly that on the scaled integer. -/
def roundHundredthsToTenths (c : Int) : Int :=
  let q := c.ediv 10
  let r := c.emod 10
  if r < 5 then q
  else if 5 < r then q + 1
  else if q.emod 2 = 0 then q else q + 1

/-- The `bbox` of a text block, `ocr_client.py` lines 251-256. -/
structure BBox where
  x : Int
  y : Int
  width : Int
  height : Int
deriving DecidableEq, Repr

/-- The `font` of a text block, `ocr_client.py` lines 257-262.  `sizeTenths`
is the font size in tenths of a point: the code stores `round(h * 0.75, 1)`. -/
structure Font where
  family : String
  sizeTenths : Int
  weight : String
  color : String
deriving DecidableEq, Repr

/-- One entry of a layout's `text_blocks` list, `ocr_client.py` lines 249-263. -/
structure TextBlock where
  text : String
  bbox : BBox
  font : Font
deriving DecidableEq, Repr

/-- One row of the `pytesseract.image_to_data` output consumed by
`extract_text_layout` (`ocr_client.py` lines 218-236): the raw text, the
integer confidence, and the raw bounding box `left/top/width/height`. -/
structure OcrFragment where
  text : String
  conf : Int
  left : Int
  top : Int
  width : Int
  height : Int
deriving DecidableEq, Repr

/-- The filter of `ocr_client.py` line 227: `if not text or confidence < 60:
continue`, where `text` is the stripped fragment text.  A fragment is kept
exactly when that skip condition is false. -/
def keepFragment (f : OcrFragment) : Bool :=
  !(pyStrip f.text == "" || decide (f.conf < 60))

/-- Building one text block, `ocr_client.py` lines 233-263: clamp the raw
coordinates (`x = max(0, x)`, `y = max(0, y)`, `w = min(width - x, w)`,
`h = min(height - y, h)`), estimate the font size as `round(h * 0.75, 1)`
and fill the constant font attributes. -/
def mkTextBlock (width height : Int) (f : OcrFragment) : TextBlock :=
  let x := max 0 f.left
  let y := max 0 f.top
  let w := min (width - x) f.width
  let h := min (height - y) f.height
  { text := pyStrip f.text
    bbox := { x := x, y := y, width := w, height := h }
    font := { family := "Arial"
              sizeTenths := roundHundredthsToTenths (75 * h)
              weight := "normal"
              color := "#000000" } }

/-- The raw text-block list built by the loop of `extract_text_layout`
(`ocr_client.py` lines 218-266), before the AI merge step: every fragment
either appends its block or is skipped by the line-227 filter. -/
def extractTextBlocks (width height : Int) (frags : List OcrFragment) : List TextBlock :=
  frags.filterMap fun f => if keepFragment f then some (mkTextBlock width height f) else none

/-! ### The AI merge step and its retry loop (src/ocr_client.py lines 39-161) -/

/-- The `for attempt in range(max_retries)` loop of `merge_text_blocks`:
try attempts `k, k+1, …` with `n` attempts of budget left and return the
first successful result.  `attempt j = none` models attempt `j` ending in
one of the two `except` branches of lines 147-157 (transport error, or a
JSON parse failure that survived the local repair). -/
def firstSuccess (attempt : Nat → Option (List TextBlock)) : Nat → Nat → Option (List TextBlock)
  | _, 0 => none
  | k, n + 1 =>
    match attempt k with
    | some r => some r
    | none => firstSuccess attempt (k + 1) n

/-- `OCRClient.merge_text_blocks` (`ocr_client.py` lines 39-161):
if no OpenAI client is configured or the input list is empty, return the
input unchanged (lines 49-50); otherwise retry the AI merge up to 3 times
and, if every attempt fails, return the input unchanged (lines 52-161). -/
def merge_text_blocks (clientConfigured : Bool) (attempt : Nat → Option (List TextBlock))
    (text_blocks : List TextBlock) : List TextBlock :=
  if !clientConfigured || text_blocks.isEmpty then text_blocks
  else
    match firstSuccess attempt 0 3 with
    | some merged => merged
    | none => text_blocks

/-! ### JSON parsing with the local repair step (src/ocr_client.py lines 118-142) -/

/-- The opening-brace character, written by code point to keep it out of
string literals. -/
def lbraceChar : Char := Char.ofNat 123

/-- The closing-brace character. -/
def rbraceChar : Char := Char.ofNat 125

/-- Python's `str.count` for a single character. -/
def countChar (s : String) (c : Char) : Nat := (s.data.filter fun a => a == c).length

/-- The truncation-repair of `ocr_client.py` lines 127-138: count unmatched
braces and brackets of the response and append that many closers, braces
first, appending nothing for a non-positive difference. -/
def repairJson (content : String) : String :=
  let openBrackets : Int := (countChar content '[' : Int) - (countChar content ']' : Int)
  let openBraces : Int := (countChar content lbraceChar : Int) - (countChar content rbraceChar : Int)
  let fixed1 :=
    if 0 < openBraces then content ++ String.mk (List.replicate openBraces.toNat rbraceChar)
    else content
  let fixed2 :=
    if 0 < openBrackets then fixed1 ++ String.mk (List.replicate openBrackets.toNat ']')
    else fixed1
  fixed2

/-- The parse cascade of `ocr_client.py` lines 118-142 over abstract strict
and lenient parsers: `json.loads(content)`, then `json.loads(content,
strict=False)`, then `json.loads(content_fixed, strict=False)` on the
locally repaired string.  The Bool records whether the repair path was
taken; a final `none` is the hard parse failure for that attempt. -/
def parseWithRepair {α : Type} (strict lenient : String → Option α) (content : String) :
    Option α × Bool :=
  match strict content with
  | some v => (some v, false)
  | none =>
    match lenient content with
    | some v => (some v, false)
    | none => (lenient (repairJson content), true)

/-! ### The background-regeneration retry loop (src/main.py lines 38-63) -/

/-- One observable event of `process_page_with_retry`: `sleep2` is the
`time.sleep(2)` backoff of line 45, `attempt k` the k-th iteration calling
the remote API. -/
inductive REvent where
  | sleep2 : REvent
  | attempt : Nat → REvent
deriving DecidableEq, Repr

/-- Whether an event is an API attempt. -/
def isAttemptEvent : REvent → Bool
  | REvent.attempt _ => true
  | REvent.sleep2 => false

/-- The number of API attempts recorded in a trace. -/
def countAttempts (tr : List REvent) : Nat := tr.countP isAttemptEvent

/-- One iteration of the loop body of `process_page_with_retry` (`main.py`
lines 47-61): call the API (`api k`, `none` for a failed call and `some t`
for accumulated stream text `t`, falsy when empty), scan the text for a URL
(`extractUrl`, the `extract_url_from_text` collaborator) and fetch the image
(`download`, the `download_image_from_url` collaborator).  `none` means the
attempt produced no image and the loop continues. -/
def attemptStep {Img : Type} (api : Nat → Option String) (extractUrl : String → Option String)
    (download : String → Option Img) (k : Nat) : Option Img :=
  match api k with
  | none => none
  | some t =>
    if t = "" then none
    else
      match extractUrl t with
      | none => none
      | some u => download u

/-- The `for attempt in range(max_retries)` loop of `process_page_with_retry`
(`main.py` lines 42-63), instrumented with an event trace: before every
attempt after the first the worker sleeps 2 seconds; the loop returns the
first fetched image, or `None` when the budget is exhausted. -/
def runRetry {Img : Type} (step : Nat → Option Img) : Nat → Nat → Option Img × List REvent
  | _, 0 => (none, [])
  | k, n + 1 =>
    let pre : List REvent := if 0 < k then [REvent.sleep2] else []
    match step k with
    | some img => (some img, pre ++ [REvent.attempt k])
    | none =>
      let rest := runRetry step (k + 1) n
      (rest.1, pre ++ REvent.attempt k :: rest.2)

/-- `process_page_with_retry` (`main.py` lines 38-63) with its default
budget passed explicitly (`max_retries=5`). -/
def process_page_with_retry {Img : Type} (api : Nat → Option String)
    (extractUrl : String → Option String) (download : String → Option Img)
    (max_retries : Nat) : Option Img × List REvent :=
  runRetry (attemptStep api extractUrl download) 0 max_retries

/-- The expected trace of attempts `k, k+1, …, k+n-1`: exactly one `sleep2`
immediately before every attempt with positive index and none before
attempt 0. -/
def traceSeg (k : Nat) : Nat → List REvent
  | 0 => []
  | n + 1 => (if 0 < k then [REvent.sleep2] else []) ++ REvent.attempt k :: traceSeg (k + 1) n

/-- `process_image_gen` (`main.py` lines 333-350): run the retry wrapper
with the default budget of 5 and substitute the original raster when it
returns `None`; the result is always `(index, someImage)`. -/
def process_image_gen {Img : Type} (api : Nat → Option String)
    (extractUrl : String → Option String) (download : String → Option Img)
    (index : Nat) (img : Img) : Nat × Img :=
  match (process_page_with_retry api extractUrl download 5).1 with
  | none => (index, img)
  | some newImg => (index, newImg)

/-! ### Result collection and assembly order (src/main.py lines 268-399) -/

/-- Writing one completed future's result into the page-indexed result list
(`main.py` lines 370-380): slot `u.1` receives the result, a `None` result
leaves the list unchanged. -/
def applyResult {α : Type} (acc : List α) (u : Nat × Option α) : List α :=
  match u.2 with
  | some v => acc.set u.1 v
  | none => acc

/-- The collection loop over `as_completed(futures)`: results arrive in an
arbitrary completion order and each one is written to its own page-indexed
slot. -/
def collectResults {α : Type} (init : List α) (updates : List (Nat × Option α)) : List α :=
  updates.foldl applyResult init

/-- `pages_data` (`main.py` lines 396-399): the ordered per-page records
handed to the assembler, pairing processed image and layout by list index. -/
def pagesData {I L : Type} (imgs : List I) (lays : List L) : List (I × L) := imgs.zip lays

/-! ### The shared progress file (src/main.py lines 86-130 and 392-416) -/

/-- One job's record inside `progress.json`: the JSON object may lack any
of the three fields, so each is optional. -/
structure ProgRecord where
  stage : Option Nat
  completed : Option Nat
  total : Option Nat
deriving DecidableEq, Repr

/-- The record created by `progress[input_path] = {}` before any field is
set (`main.py` line 97). -/
def emptyRecord : ProgRecord := { stage := none, completed := none, total := none }

/-- Reading `progress.json` as `save_progress` does (`main.py` lines 89-93):
a missing file loads as the empty mapping. -/
def loadProgressMap (file : Option (String → Option ProgRecord)) : String → Option ProgRecord :=
  match file with
  | none => fun _ => none
  | some m => m

/-- `save_progress` (`main.py` lines 86-107): read-modify-write of the one
shared progress file.  The given job's record gets `stage` set and
`completed`/`total` set only when passed; every other key is carried over
unchanged. -/
def save_progress (file : Option (String → Option ProgRecord)) (input_path : String)
    (stage : Nat) (completed total : Option Nat) : Option (String → Option ProgRecord) :=
  let progress := loadProgressMap file
  let r := (progress input_path).getD emptyRecord
  let r2 : ProgRecord :=
    { stage := some stage
      completed := match completed with | some c => some c | none => r.completed
      total := match total with | some t => some t | none => r.total }
  some fun k => if k = input_path then some r2 else progress k

/-- `load_progress` (`main.py` lines 109-117): `None` when the file does
not exist, else the record stored under the given path. -/
def load_progress (file : Option (String → Option ProgRecord)) (input_path : String) :
    Option ProgRecord :=
  match file with
  | none => none
  | some m => m input_path

/-- `delete_progress` (`main.py` lines 119-130): when the file exists,
rewrite it with the given job's entry removed and all other entries
unchanged; a missing file is left missing. -/
def delete_progress (file : Option (String → Option ProgRecord)) (input_path : String) :
    Option (String → Option ProgRecord) :=
  match file with
  | none => none
  | some m => some fun k => if k = input_path then none else m k

/-- Step 3 of `main` (`main.py` lines 392-416): final document assembly is
attempted inside `try`; an exception is caught and logged (the Bool records
whether the success message was printed) and `save_progress(input_path, 3,
…)` at line 415 runs afterwards in either case. -/
def runStep3 (file : Option (String → Option ProgRecord)) (input_path : String)
    (total_pages : Nat) (assemble : Except String Unit) :
    Option (String → Option ProgRecord) × Bool :=
  match assemble with
  | Except.ok _ => (save_progress file input_path 3 (some total_pages) (some total_pages), true)
  | Except.error _ => (save_progress file input_path 3 (some total_pages) (some total_pages), false)

/-! ### Legacy PDF output (src/pdf_processor.py lines 28-55) -/

/-- A PIL image for the purposes of `save_images_to_pdf`: its colour mode
and an identity tag. -/
structure PImage where
  mode : String
  uid : Nat
deriving DecidableEq, Repr

/-- `img.convert('RGB')`. -/
def convertRGB (img : PImage) : PImage := { img with mode := "RGB" }

/-- `save_images_to_pdf` (`pdf_processor.py` lines 28-55), returning the
ordered page list written to the PDF (`none` when no file is written).
The loop converts an RGBA image but never appends it, and appends every
non-RGBA image unchanged; when the accumulated list is empty the fallback
branch writes every input image converted to RGB. -/
def save_images_to_pdf (images : List PImage) : Option (List PImage) :=
  match images with
  | [] => none
  | i0 :: rest =>
    let rgb_images := (i0 :: rest).filter fun img => !(img.mode == "RGBA")
    match rgb_images with
    | [] => some (convertRGB i0 :: rest.map convertRGB)
    | r0 :: rs => some (r0 :: rs)

/-! ### Concrete inputs used by witnesses and counterexamples -/

/-- Concrete fragment with a negative raw width (counterexample input). -/
def fragNegWidth : OcrFragment :=
  { text := "a", conf := 90, left := 5, top := 0, width := -3, height := 2 }

/-- Concrete well-formed fragment (witness input). -/
def fragInRange : OcrFragment :=
  { text := "hi", conf := 95, left := 3, top := 4, width := 20, height := 10 }

/-- Concrete text block (witness input). -/
def sampleBlock : TextBlock :=
  { text := "Page 1"
    bbox := { x := 0, y := 0, width := 40, height := 12 }
    font := { family := "Arial", sizeTenths := 90, weight := "normal", color := "#000000" } }

/-- Concrete progress file holding two jobs (witness input). -/
def progSample : Option (String → Option ProgRecord) :=
  some fun s =>
    if s = "a.pdf" then some { stage := some 1, completed := some 2, total := some 3 }
    else if s = "b.pdf" then some { stage := some 2, completed := none, total := none }
    else none

/-- Concrete progress file with one job at stage 2 (counterexample input). -/
def progStage2 : Option (String → Option ProgRecord) :=
  some fun s =>
    if s = "doc.pdf" then some { stage := some 2, completed := some 1, total := some 1 }
    else none

/-- A one-element image list whose only image is RGBA (counterexample input). -/
def rgbaOnly : List PImage := [{ mode := "RGBA", uid := 0 }]

/-- An image list mixing a non-RGBA and an RGBA image (witness input). -/
def mixedImages : List PImage := [{ mode := "RGB", uid := 1 }, { mode := "RGBA", uid := 2 }]

end PTR

namespace PTR

/-! ### Proofs about the OCR extraction loop (claims C5 and C8) -/

lemma keepFragment_iff (f : OcrFragment) :
    keepFragment f = true ↔ (pyStrip f.text ≠ "" ∧ 60 ≤ f.conf) := by
  simp only [keepFragment, Bool.not_eq_true', Bool.or_eq_false_iff, beq_eq_false_iff_ne,
    decide_eq_false_iff_not, not_lt]

lemma keepFragment_eq_decide (f : OcrFragment) :
    keepFragment f = decide (pyStrip f.text ≠ "" ∧ 60 ≤ f.conf) := by
  by_cases hs : pyStrip f.text ≠ "" ∧ 60 ≤ f.conf
  · simp [hs, (keepFragment_iff f).mpr hs]
  · have hk : keepFragment f ≠ true := fun hk => hs ((keepFragment_iff f).mp hk)
    simp [hs, Bool.eq_false_iff.mpr hk]

lemma filterMap_keep_eq_map_filter (g : OcrFragment → TextBlock) (frags : List OcrFragment) :
    (frags.filterMap fun f => if keepFragment f then some (g f) else none)
      = (frags.filter keepFragment).map g := by
  induction frags with
  | nil => rfl
  | cons f fs ih =>
    by_cases hk : keepFragment f = true <;>
      simp [List.filterMap_cons, List.filter_cons, hk, ih]

lemma extractTextBlocks_eq_filter_map (w h : Int) (frags : List OcrFragment) :
    extractTextBlocks w h frags
      = (frags.filter fun f => decide (pyStrip f.text ≠ "" ∧ 60 ≤ f.conf)).map
          (mkTextBlock w h) := by
  rw [extractTextBlocks, filterMap_keep_eq_map_filter,
    List.filter_congr fun f _ => keepFragment_eq_decide f]

lemma mem_extractTextBlocks {w h : Int} {frags : List OcrFragment} {b : TextBlock}
    (hb : b ∈ extractTextBlocks w h frags) :
    ∃ f ∈ frags, keepFragment f = true ∧ b = mkTextBlock w h f := by
  rcases List.mem_filterMap.mp hb with ⟨f, hf, hval⟩
  by_cases hk : keepFragment f = true
  · exact ⟨f, hf, hk, by simpa [hk] using hval.symm⟩
  · simp [hk] at hval

/-- Claim C5 — a fragment is included in the page's raw text-block list iff
its stripped text is non-empty and its confidence is at least 60 (the output
is exactly the filter of the input by that predicate, mapped to blocks), and
every included block's font size equals `0.75` times its bounding-box height
rounded to one decimal (held in tenths of a point). -/
theorem C5_ocr_filter_and_font_size (w h : Int) (frags : List OcrFragment) :
    extractTextBlocks w h frags
      = (frags.filter fun f => decide (pyStrip f.text ≠ "" ∧ 60 ≤ f.conf)).map
          (mkTextBlock w h)
    ∧ ∀ b ∈ extractTextBlocks w h frags,
        b.font.sizeTenths = roundHundredthsToTenths (75 * b.bbox.height) := by
  refine ⟨extractTextBlocks_eq_filter_map w h frags, ?_⟩
  intro b hb
  rcases mem_extractTextBlocks hb with ⟨f, _, _, rfl⟩
  rfl

/-- Claim C8, counterexample — a raw fragment with a negative raw width
survives the clamping step with a negative bbox width: on a 10×10 raster,
the fragment `("a", conf 90, left 5, top 0, width -3, height 2)` produces a
block whose bbox width is `-3`, so the bbox does not lie within
`[0,width)×[0,height)` with non-negative extent as the claim states. -/
theorem C8_counterexample_negative_width :
    (extractTextBlocks 10 10 [fragNegWidth]).map (fun b => b.bbox)
      = [{ x := 5, y := 0, width := -3, height := 2 }]
    ∧ ¬ (0 : Int) ≤ (-3 : Int) :=
  ⟨by decide, by decide⟩

/-- Claim C8, amended — after the clamping step every produced block
satisfies `0 ≤ x`, `0 ≤ y`, `x + bbox.width ≤ width` and
`y + bbox.height ≤ height`; the further containment claimed by the spec
(non-negative bbox width/height, hence `x < width`) does not hold for
out-of-range raw coordinates, since the code clamps only from below on
`x`,`y` and only from above on `w`,`h`. -/
theorem C8_clamped_bbox_bounds (w h : Int) (frags : List OcrFragment)
    (b : TextBlock) (hb : b ∈ extractTextBlocks w h frags) :
    0 ≤ b.bbox.x ∧ 0 ≤ b.bbox.y ∧ b.bbox.x + b.bbox.width ≤ w
      ∧ b.bbox.y + b.bbox.height ≤ h := by
  rcases mem_extractTextBlocks hb with ⟨f, _, _, rfl⟩
  refine ⟨le_max_left 0 f.left, le_max_left 0 f.top, ?_, ?_⟩
  · have hm : min (w - max 0 f.left) f.width ≤ w - max 0 f.left := min_le_left _ _
    simp only [mkTextBlock]
    omega
  · have hm : min (h - max 0 f.top) f.height ≤ h - max 0 f.top := min_le_left _ _
    simp only [mkTextBlock]
    omega

/-- Claim C8, witness — the amended bound theorem applied to a concrete
in-range fragment on a 100×50 raster. -/
theorem C8_clamped_bbox_bounds_witness :
    0 ≤ (mkTextBlock 100 50 fragInRange).bbox.x
    ∧ 0 ≤ (mkTextBlock 100 50 fragInRange).bbox.y
    ∧ (mkTextBlock 100 50 fragInRange).bbox.x
        + (mkTextBlock 100 50 fragInRange).bbox.width ≤ 100
    ∧ (mkTextBlock 100 50 fragInRange).bbox.y
        + (mkTextBlock 100 50 fragInRange).bbox.height ≤ 50 :=
  C8_clamped_bbox_bounds 100 50 [fragInRange] _ (by decide)

/-! ### Proofs about the AI merge fallback (claim C3) -/

lemma firstSuccess_eq_none (attempt : Nat → Option (List TextBlock)) :
    ∀ (n k : Nat), (∀ j, j < n → attempt (k + j) = none) → firstSuccess attempt k n = none := by
  intro n
  induction n with
  | zero => intro k _; rfl
  | succ m ih =>
    intro k hfail
    have h0 : attempt k = none := by simpa using hfail 0 (by omega)
    have hrest : ∀ j, j < m → attempt (k + 1 + j) = none := by
      intro j hj
      have := hfail (j + 1) (by omega)
      simpa [Nat.add_assoc, Nat.add_comm 1 j] using this
    simp [firstSuccess, h0, ih (k + 1) hrest]

/-- Claim C3 — if the AI merge collaborator is not configured, or every
merge attempt within the budget of 3 fails (transport or parse error),
`merge_text_blocks` returns the input fragment list itself, unmodified. -/
theorem C3_merge_fallback_returns_input (clientConfigured : Bool)
    (attempt : Nat → Option (List TextBlock)) (text_blocks : List TextBlock)
    (hfail : clientConfigured = false ∨ ∀ k, k < 3 → attempt k = none) :
    merge_text_blocks clientConfigured attempt text_blocks = text_blocks := by
  rcases hfail with hcc | hfail
  · simp [merge_text_blocks, hcc]
  · have hfs : firstSuccess attempt 0 3 = none :=
      firstSuccess_eq_none attempt 3 0 (by simpa using hfail)
    by_cases hcc : clientConfigured <;> simp [merge_text_blocks, hcc, hfs]

/-- Claim C3, witness — with a configured client whose three attempts all
fail, a one-block list is returned unchanged. -/
theorem C3_merge_fallback_witness :
    merge_text_blocks true (fun _ => none) [sampleBlock] = [sampleBlock] :=
  C3_merge_fallback_returns_input true (fun _ => none) [sampleBlock]
    (Or.inr fun _ _ => rfl)

/-! ### Proofs about the JSON repair step (claim C7) -/

lemma repairJson_closed_form (content : String) :
    repairJson content
      = content
        ++ String.mk (List.replicate
            ((countChar content lbraceChar : Int) - (countChar content rbraceChar : Int)).toNat
            rbraceChar)
        ++ String.mk (List.replicate
            ((countChar content '[' : Int) - (countChar content ']' : Int)).toNat ']') := by
  have hmk : String.mk ([] : List Char) = "" := rfl
  unfold repairJson
  rcases lt_or_le 0 ((countChar content lbraceChar : Int) - (countChar content rbraceChar : Int))
    with hbr | hbr <;>
    rcases lt_or_le 0 ((countChar content '[' : Int) - (countChar content ']' : Int))
      with hbk | hbk
  · simp [hbr, hbk]
  · simp [hbr, not_lt.mpr hbk, Int.toNat_of_nonpos hbk, hmk, String.append_empty]
  · simp [not_lt.mpr hbr, hbk, Int.toNat_of_nonpos hbr, hmk, String.append_empty]
  · simp [not_lt.mpr hbr, not_lt.mpr hbk, Int.toNat_of_nonpos hbr, Int.toNat_of_nonpos hbk,
      hmk, String.append_empty]

/-- Claim C7 — the local JSON repair runs only after both the strict and the
lenient parse have failed; it appends exactly the brace deficit of closing
braces and then the bracket deficit of closing brackets (nothing for a
non-positive deficit); when taken, the attempt's result is the lenient parse
of the repaired string, so a still-failing repaired string is a hard parse
failure for that attempt. -/
theorem C7_json_repair_last_resort {α : Type} (strict lenient : String → Option α)
    (content : String) :
    ((parseWithRepair strict lenient content).2 = true
        ↔ strict content = none ∧ lenient content = none)
    ∧ ((parseWithRepair strict lenient content).2 = true →
        (parseWithRepair strict lenient content).1 = lenient (repairJson content))
    ∧ repairJson content
        = content
          ++ String.mk (List.replicate
              ((countChar content lbraceChar : Int) - (countChar content rbraceChar : Int)).toNat
              rbraceChar)
          ++ String.mk (List.replicate
              ((countChar content '[' : Int) - (countChar content ']' : Int)).toNat ']') := by
  refine ⟨?_, ?_, repairJson_closed_form content⟩ <;>
    cases hs : strict content <;> cases hl : lenient content <;>
      simp [parseWithRepair, hs, hl]

/-! ### Proofs about the regeneration retry loop (claims C6 and C2) -/

lemma countAttempts_traceSeg : ∀ (n k : Nat), countAttempts (traceSeg k n) = n := by
  intro n
  induction n with
  | zero => intro k; rfl
  | succ m ih =>
    intro k
    have ih2 := ih (k + 1)
    simp only [countAttempts] at ih2 ⊢
    by_cases hk : 0 < k <;>
      simp [traceSeg, List.countP_append, List.countP_cons, isAttemptEvent, hk, ih2]

lemma runRetry_trace {Img : Type} (step : Nat → Option Img) :
    ∀ (n k : Nat), ∃ m, m ≤ n ∧ (runRetry step k n).2 = traceSeg k m := by
  intro n
  induction n with
  | zero => intro k; exact ⟨0, Nat.le_refl 0, rfl⟩
  | succ fuel ih =>
    intro k
    cases hs : step k with
    | some img =>
      refine ⟨1, by omega, ?_⟩
      simp [runRetry, hs, traceSeg]
    | none =>
      obtain ⟨m, hm, htr⟩ := ih (k + 1)
      refine ⟨m + 1, by omega, ?_⟩
      simp [runRetry, hs, traceSeg, htr]

lemma runRetry_result_none {Img : Type} (step : Nat → Option Img) :
    ∀ (n k : Nat), (∀ j, j < n → step (k + j) = none) → (runRetry step k n).1 = none := by
  intro n
  induction n with
  | zero => intro k _; rfl
  | succ fuel ih =>
    intro k hfail
    have h0 : step k = none := by simpa using hfail 0 (by omega)
    have hrest : ∀ j, j < fuel → step (k + 1 + j) = none := by
      intro j hj
      have := hfail (j + 1) (by omega)
      simpa [Nat.add_assoc, Nat.add_comm 1 j] using this
    simp [runRetry, h0, ih (k + 1) hrest]

/-- Every failure shape of one attempt — failed or empty API call, text with
no URL, failed image fetch — and nothing else makes the attempt yield no
image, so all four are retried uniformly. -/
lemma attemptStep_eq_none_iff {Img : Type} (api : Nat → Option String)
    (extractUrl : String → Option String) (download : String → Option Img) (k : Nat) :
    attemptStep api extractUrl download k = none
      ↔ (api k = none
         ∨ api k = some ("")
         ∨ (∃ t, api k = some t ∧ t ≠ "" ∧ extractUrl t = none)
         ∨ (∃ t u, api k = some t ∧ t ≠ "" ∧ extractUrl t = some u ∧ download u = none)) := by
  constructor
  · intro h
    cases hapi : api k with
    | none => exact Or.inl rfl
    | some t =>
      by_cases ht : t = ""
      · subst ht
        exact Or.inr (Or.inl rfl)
      · cases heu : extractUrl t with
        | none => exact Or.inr (Or.inr (Or.inl ⟨t, rfl, ht, heu⟩))
        | some u =>
          cases hdl : download u with
          | none => exact Or.inr (Or.inr (Or.inr ⟨t, u, rfl, ht, heu, hdl⟩))
          | some img => simp [attemptStep, hapi, ht, heu, hdl] at h
  · rintro (h | h | ⟨t, h1, h2, h3⟩ | ⟨t, u, h1, h2, h3, h4⟩)
    · simp [attemptStep, h]
    · simp [attemptStep, h]
    · simp [attemptStep, h1, h2, h3]
    · simp [attemptStep, h1, h2, h3, h4]

/-- Claim C6 — with the default budget of 5, the retry loop makes at most 5
attempts and its trace is exactly the attempts `0..n-1` with one 2-second
sleep before every attempt after the first (`traceSeg 0 n` for some
`n ≤ 5`); and an attempt is retried exactly when the call failed, the
response was empty, the text held no URL or the fetch failed.  The loop is
a total function, so it terminates for every oracle behaviour. -/
theorem C6_retry_budget_backoff_uniform {Img : Type} (api : Nat → Option String)
    (extractUrl : String → Option String) (download : String → Option Img) :
    (∃ n, n ≤ 5 ∧ (process_page_with_retry api extractUrl download 5).2 = traceSeg 0 n
        ∧ countAttempts (process_page_with_retry api extractUrl download 5).2 = n)
    ∧ ∀ k, attemptStep api extractUrl download k = none
        ↔ (api k = none
           ∨ api k = some ("")
           ∨ (∃ t, api k = some t ∧ t ≠ "" ∧ extractUrl t = none)
           ∨ (∃ t u, api k = some t ∧ t ≠ "" ∧ extractUrl t = some u ∧ download u = none)) := by
  constructor
  · obtain ⟨n, hn, htr⟩ := runRetry_trace (attemptStep api extractUrl download) 5 0
    exact ⟨n, hn, htr, by rw [process_page_with_retry, htr, countAttempts_traceSeg]⟩
  · exact attemptStep_eq_none_iff api extractUrl download

/-- Claim C2 — when every attempt within the budget of 5 fails (failed or
empty call, no URL, or failed fetch), `process_image_gen` returns the
original raster in the page's own slot: the per-page result is never `None`
and the page is never failed. -/
theorem C2_regen_fallback_original {Img : Type} (api : Nat → Option String)
    (extractUrl : String → Option String) (download : String → Option Img)
    (index : Nat) (img : Img)
    (hfail : ∀ k, k < 5 →
      (api k = none
       ∨ api k = some ("")
       ∨ (∃ t, api k = some t ∧ t ≠ "" ∧ extractUrl t = none)
       ∨ (∃ t u, api k = some t ∧ t ≠ "" ∧ extractUrl t = some u ∧ download u = none))) :
    process_image_gen api extractUrl download index img = (index, img) := by
  have hstep : ∀ j, j < 5 → attemptStep api extractUrl download (0 + j) = none := by
    intro j hj
    have := (attemptStep_eq_none_iff api extractUrl download j).mpr (hfail j hj)
    simpa using this
  have hres : (process_page_with_retry api extractUrl download 5).1 = none :=
    runRetry_result_none (attemptStep api extractUrl download) 5 0 hstep
  simp [process_image_gen, hres]

/-- Claim C2, witness — with an API that always fails, page 0's result is
the original image 7. -/
theorem C2_regen_fallback_witness :
    process_image_gen (fun _ => none) (fun _ => none) (fun _ => (none : Option Nat)) 0 7
      = (0, 7) :=
  C2_regen_fallback_original (fun _ => none) (fun _ => none) (fun _ => (none : Option Nat))
    0 7 (fun _ _ => Or.inl rfl)

/-! ### Proofs about assembly ordering (claim C1) -/

lemma length_collectResults {α : Type} (us : List (Nat × Option α)) :
    ∀ init : List α, (collectResults init us).length = init.length := by
  induction us with
  | nil => intro init; rfl
  | cons u us ih =>
    intro init
    have : (applyResult init u).length = init.length := by
      cases hu : u.2 <;> simp [applyResult, hu]
    rw [collectResults, List.foldl_cons, ← collectResults, ih, this]

lemma collectResults_getElem?_of_not_assigned {α : Type} {us : List (Nat × Option α)} {i : Nat}
    (h : ∀ v : α, (i, some v) ∉ us) :
    ∀ init : List α, (collectResults init us)[i]? = init[i]? := by
  induction us with
  | nil => intro init; rfl
  | cons u us ih =>
    intro init
    have htail : ∀ v : α, (i, some v) ∉ us := fun v hv =>
      h v (List.mem_cons_of_mem u hv)
    rw [collectResults, List.foldl_cons, ← collectResults, ih htail]
    rcases u with ⟨j, ov⟩
    cases hov : ov with
    | none => simp [applyResult]
    | some v =>
      have hne : j ≠ i := by
        rintro rfl
        exact h v (by simp [hov])
      simp [applyResult, List.getElem?_set_ne hne]

lemma collectResults_getElem?_of_assigned {α : Type} {us : List (Nat × Option α)} {i : Nat}
    {v : α} (hnd : (us.map Prod.fst).Nodup) (hmem : (i, some v) ∈ us) :
    ∀ init : List α, i < init.length → (collectResults init us)[i]? = some v := by
  induction us with
  | nil => exact absurd hmem (List.not_mem_nil _)
  | cons u us ih =>
    intro init hi
    rw [List.map_cons, List.nodup_cons] at hnd
    rcases List.mem_cons.mp hmem with heq | htail
    · have hu1 : u.1 = i := by rw [← heq]
      have hu2 : u.2 = some v := by rw [← heq]
      have hnot : ∀ w : α, (i, some w) ∉ us := by
        intro w hw
        exact hnd.1 (hu1 ▸ (List.mem_map_of_mem Prod.fst hw : (i, some w).1 ∈ us.map Prod.fst))
      rw [collectResults, List.foldl_cons, ← collectResults,
        collectResults_getElem?_of_not_assigned hnot]
      rcases u with ⟨j, ov⟩
      simp only at hu1 hu2
      subst hu1; subst hu2
      simp [applyResult, List.getElem?_set_eq_of_lt v hi]
    · have hji : u.1 ≠ i := by
        rintro rfl
        exact hnd.1 (List.mem_map_of_mem Prod.fst htail : (u.1, some v).1 ∈ us.map Prod.fst)
      have hlen : i < (applyResult init u).length := by
        cases hu : u.2 <;> simpa [applyResult, hu] using hi
      rw [collectResults, List.foldl_cons, ← collectResults, ih hnd.2 htail _ hlen]

lemma collectResults_perm {α : Type} {us order : List (Nat × Option α)}
    (hp : order.Perm us) (hnd : (us.map Prod.fst).Nodup) (init : List α) :
    collectResults init order = collectResults init us := by
  have hnd2 : (order.map Prod.fst).Nodup := ((hp.map Prod.fst).nodup_iff).mpr hnd
  apply List.ext_getElem?
  intro i
  by_cases hass : ∃ v, (i, some v) ∈ us
  · rcases hass with ⟨v, hv⟩
    have hv2 : (i, some v) ∈ order := hp.mem_iff.mpr hv
    by_cases hi : i < init.length
    · rw [collectResults_getElem?_of_assigned hnd2 hv2 init hi,
        collectResults_getElem?_of_assigned hnd hv init hi]
    · have h1 : (collectResults init order).length ≤ i := by
        rw [length_collectResults]; omega
      have h2 : (collectResults init us).length ≤ i := by
        rw [length_collectResults]; omega
      rw [List.getElem?_eq_none h1, List.getElem?_eq_none h2]
  · push_neg at hass
    have hass2 : ∀ v, (i, some v) ∉ order := fun v hv => hass v (hp.mem_iff.mp hv)
    rw [collectResults_getElem?_of_not_assigned hass2,
      collectResults_getElem?_of_not_assigned hass]

lemma zip_getElem?_eq_some {I L : Type} :
    ∀ (l1 : List I) (l2 : List L) (n : Nat) (a : I) (b : L),
      l1[n]? = some a → l2[n]? = some b → (l1.zip l2)[n]? = some (a, b) := by
  intro l1
  induction l1 with
  | nil => intro l2 n a b h1 _; simp at h1
  | cons x xs ih =>
    intro l2 n a b h1 h2
    cases l2 with
    | nil => simp at h2
    | cons y ys =>
      cases n with
      | zero =>
        simp only [List.getElem?_cons_zero, Option.some_inj] at h1 h2
        simp [List.zip_cons_cons, h1, h2]
      | succ m =>
        simp only [List.getElem?_cons_succ] at h1 h2
        simpa [List.zip_cons_cons] using ih ys m a b h1 h2

/-- Claim C1 — each worker's result is written only to its own page-indexed
slot, so the collected result lists — and with them the ordered
(image, layout) pairs handed to the assembler — are the same for every
completion order of the two pools (any permutations of the two result
streams), and the pair at page index `i` holds exactly page `i`'s results. -/
theorem C1_assembly_order_independent_of_completion {I L : Type}
    (initImgs : List I) (initLays : List L)
    (ius iorder : List (Nat × Option I)) (lus lorder : List (Nat × Option L))
    (hpi : iorder.Perm ius) (hpl : lorder.Perm lus)
    (hni : (ius.map Prod.fst).Nodup) (hnl : (lus.map Prod.fst).Nodup) :
    pagesData (collectResults initImgs iorder) (collectResults initLays lorder)
      = pagesData (collectResults initImgs ius) (collectResults initLays lus)
    ∧ (∀ i v, (i, some v) ∈ ius → i < initImgs.length →
        (collectResults initImgs iorder)[i]? = some v)
    ∧ (∀ i v, (i, some v) ∈ lus → i < initLays.length →
        (collectResults initLays lorder)[i]? = some v)
    ∧ ∀ (j : Nat) (a : I) (b : L), (collectResults initImgs iorder)[j]? = some a →
        (collectResults initLays lorder)[j]? = some b →
        (pagesData (collectResults initImgs iorder) (collectResults initLays lorder))[j]?
          = some (a, b) := by
  refine ⟨?_, ?_, ?_, ?_⟩
  · rw [collectResults_perm hpi hni, collectResults_perm hpl hnl]
  · intro i v hv hi
    have hv2 : (i, some v) ∈ iorder := hpi.mem_iff.mpr hv
    exact collectResults_getElem?_of_assigned (((hpi.map Prod.fst).nodup_iff).mpr hni)
      hv2 initImgs hi
  · intro i v hv hi
    have hv2 : (i, some v) ∈ lorder := hpl.mem_iff.mpr hv
    exact collectResults_getElem?_of_assigned (((hpl.map Prod.fst).nodup_iff).mpr hnl)
      hv2 initLays hi
  · intro j a b h1 h2
    exact zip_getElem?_eq_some _ _ j a b h1 h2

/-- Claim C1, witness — two pages whose image results complete in reverse
order and whose layout results complete in submission order assemble to the
same records as the canonical order, and page 0's pair holds page 0's
results. -/
theorem C1_assembly_order_witness :
    pagesData (collectResults [0, 0] [((1 : Nat), some (11 : Nat)), (0, some 10)])
        (collectResults [5, 5] [((0 : Nat), some (20 : Nat)), (1, some 21)])
      = pagesData (collectResults [0, 0] [((0 : Nat), some (10 : Nat)), (1, some 11)])
        (collectResults [5, 5] [((0 : Nat), some (20 : Nat)), (1, some 21)]) :=
  (C1_assembly_order_independent_of_completion [0, 0] [5, 5]
    [((0 : Nat), some (10 : Nat)), (1, some 11)] [((1 : Nat), some (11 : Nat)), (0, some 10)]
    [((0 : Nat), some (20 : Nat)), (1, some 21)] [((0 : Nat), some (20 : Nat)), (1, some 21)]
    (by decide) (by decide) (by decide) (by decide)).1

/-! ### Proofs about the progress file (claims C10 and C4) -/

/-- Claim C10 — `save_progress` and `delete_progress` rewrite the shared
progress file leaving every record keyed by another path unchanged, and
after `delete_progress` the given job's record loads as absent. -/
theorem C10_progress_frame (file : Option (String → Option ProgRecord))
    (path k : String) (stage : Nat) (completed total : Option Nat) (hk : k ≠ path) :
    load_progress (save_progress file path stage completed total) k = load_progress file k
    ∧ load_progress (delete_progress file path) k = load_progress file k
    ∧ load_progress (delete_progress file path) path = none := by
  refine ⟨?_, ?_, ?_⟩
  · cases file <;> simp [load_progress, save_progress, loadProgressMap, hk]
  · cases file <;> simp [load_progress, delete_progress, hk]
  · cases file <;> simp [load_progress, delete_progress]

/-- Claim C10, witness — with a file holding jobs `a.pdf` and `b.pdf`,
saving stage 2 for `a.pdf` and deleting `a.pdf` both leave `b.pdf`'s record
unchanged, and `a.pdf` loads as absent after deletion. -/
theorem C10_progress_frame_witness :
    load_progress (save_progress progSample "a.pdf" 2 none none) "b.pdf"
        = load_progress progSample "b.pdf"
    ∧ load_progress (delete_progress progSample "a.pdf") "b.pdf"
        = load_progress progSample "b.pdf"
    ∧ load_progress (delete_progress progSample "a.pdf") "a.pdf" = none :=
  C10_progress_frame progSample "a.pdf" "b.pdf" 2 none none (by decide)

/-- Claim C4, counterexample — starting from a progress file at stage 2 for
`doc.pdf`, a failing final assembly still ends with the job's persisted
stage equal to 3, not left at stage 2 as the claim states. -/
theorem C4_counterexample_stage3_after_failed_assembly :
    (load_progress (runStep3 progStage2 "doc.pdf" 1 (Except.error ("assembly failed"))).1
        "doc.pdf").map ProgRecord.stage = some (some 3)
    ∧ some (some (3 : Nat)) ≠ some (some (2 : Nat)) :=
  ⟨by decide, by decide⟩

/-- Claim C4, amended — `main` catches an assembly exception, logs it, and
then runs `save_progress(input_path, 3, …)` unconditionally: after step 3
the job's persisted stage is 3 whether assembly succeeded or threw, so a
failed assembly does not leave the record at stage 2. -/
theorem C4_stage3_recorded_regardless (file : Option (String → Option ProgRecord))
    (path : String) (total : Nat) (assemble : Except String Unit) :
    (runStep3 file path total assemble).1
        = save_progress file path 3 (some total) (some total)
    ∧ (load_progress (runStep3 file path total assemble).1 path).map ProgRecord.stage
        = some (some 3) := by
  cases assemble <;>
    exact ⟨rfl, by simp [runStep3, save_progress, load_progress]⟩

/-! ### Proofs about the legacy PDF writer (claim C9) -/

/-- Claim C9, counterexample — a list holding one RGBA image is not written
as the (empty) list of its non-RGBA members: the fallback branch writes the
image converted to RGB, so the claimed output (exactly the non-RGBA images)
is wrong when every image is RGBA. -/
theorem C9_counterexample_all_rgba :
    save_images_to_pdf rgbaOnly = some [{ mode := "RGB", uid := 0 }]
    ∧ rgbaOnly.filter (fun img => !(img.mode == "RGBA")) = []
    ∧ some [({ mode := "RGB", uid := 0 } : PImage)] ≠ some ([] : List PImage) :=
  ⟨by decide, by decide, by decide⟩

/-- Claim C9, amended — for a non-empty image list holding at least one
non-RGBA image, the written PDF contains exactly the non-RGBA images in
their original relative order (RGBA images are converted but never added,
hence silently omitted); when every image is RGBA the fallback instead
writes all of them converted to RGB. -/
theorem C9_non_rgba_kept_in_order (images : List PImage) (hne : images ≠ []) :
    ((∃ i ∈ images, i.mode ≠ "RGBA") →
      save_images_to_pdf images = some (images.filter fun img => !(img.mode == "RGBA")))
    ∧ ((∀ i ∈ images, i.mode = "RGBA") →
      save_images_to_pdf images = some (images.map convertRGB)) := by
  rcases images with _ | ⟨i0, rest⟩
  · exact absurd rfl hne
  constructor
  · intro hex
    have hfil : (i0 :: rest).filter (fun img => !(img.mode == "RGBA")) ≠ [] := by
      rcases hex with ⟨i, hi, hmode⟩
      intro hnil
      have := List.filter_eq_nil_iff.mp hnil i hi
      simp [hmode] at this
    rcases hfc : (i0 :: rest).filter (fun img => !(img.mode == "RGBA")) with _ | ⟨r0, rs⟩
    · exact absurd hfc hfil
    · simp [save_images_to_pdf, hfc]
  · intro hall
    have hfil : (i0 :: rest).filter (fun img => !(img.mode == "RGBA")) = [] := by
      apply List.filter_eq_nil_iff.mpr
      intro i hi
      simp [hall i hi]
    simp [save_images_to_pdf, hfil]

/-- Claim C9, witness — a list of one RGB and one RGBA image is written as
just the RGB image. -/
theorem C9_non_rgba_kept_witness :
    save_images_to_pdf mixedImages = some [{ mode := "RGB", uid := 1 }] := by
  have h := (C9_non_rgba_kept_in_order mixedImages (by decide)).1
    ⟨{ mode := "RGB", uid := 1 }, by decide, by decide⟩
  rw [h]
  decide

end PTR
